import Mathlib

/-!
Verification of the orchestration and retry core of the filcdn-interaction
server (main.go). Strings are modelled as Lean `String` (lists of
characters); the Go `strings` package functions used by the source are
reimplemented below so the parsers can be embedded faithfully. External
effects (the pdptool process, the database, sleeps) are modelled by
passing in explicit result oracles and by recording traces of the
invocation counts and sleep durations the handlers would perform.
-/

/-- The whitespace characters Go `strings.TrimSpace` removes on ASCII input. -/
def isSpaceChar (c : Char) : Bool :=
  c == ' ' || c == '\t' || c == '\n' || c == '\r'

/-- Decides whether the first list is a leading block of the second. -/
def isPrefixL : List Char → List Char → Bool
  | [], _ => true
  | _ :: _, [] => false
  | a :: as, b :: bs => a == b && isPrefixL as bs

/-- Character index of the first occurrence of `needle`, as in Go
`strings.Index` (for ASCII input byte and character indices agree). -/
def subIndex (needle : List Char) : List Char → Option Nat
  | [] => if isPrefixL needle [] then some 0 else none
  | c :: rest =>
    if isPrefixL needle (c :: rest) then some 0
    else (subIndex needle rest).map (· + 1)

/-- Go `strings.TrimSpace` on the character list. -/
def trimL (l : List Char) : List Char :=
  ((l.dropWhile isSpaceChar).reverse.dropWhile isSpaceChar).reverse

/-- Go `strings.Split(s, "\n")` on the character list: the list of
newline-separated pieces, never empty. -/
def splitOnNL : List Char → List (List Char)
  | [] => [[]]
  | c :: rest =>
    if c == '\n' then [] :: splitOnNL rest
    else
      match splitOnNL rest with
      | [] => [[c]]
      | h :: t => (c :: h) :: t

/-- Go `strings.Contains`. -/
def goContains (s sub : String) : Bool := (subIndex sub.data s.data).isSome

/-- Go `strings.Index`. -/
def goIndex (s sub : String) : Option Nat := subIndex sub.data s.data

/-- Go `strings.HasPrefix(s, pre)`. -/
def goStartsWith (s pre : String) : Bool := isPrefixL pre.data s.data

/-- Go `strings.HasSuffix(s, suf)`. -/
def goHasSuffix (s suf : String) : Bool := isPrefixL suf.data.reverse s.data.reverse

/-- Go `strings.ToLower` (ASCII). -/
def goToLower (s : String) : String := ⟨s.data.map Char.toLower⟩

/-- Go `strings.TrimSpace`. -/
def goTrimSpace (s : String) : String := ⟨trimL s.data⟩

/-- Go slice `s[n:]` (character based). -/
def goDrop (s : String) (n : Nat) : String := ⟨s.data.drop n⟩

/-- Go slice `s[:n]` (character based). -/
def goTake (s : String) (n : Nat) : String := ⟨s.data.take n⟩

/-- Go `strings.Split(s, "\n")`. -/
def splitLines (s : String) : List String := (splitOnNL s.data).map String.mk

/-- Go `lines[len(lines)-1]`; total because `splitOnNL` is never empty. -/
def lastLine (ls : List String) : String := (ls.getLast?).getD ""

/-!
Output parsers of the source, embedded from main.go.

`parseRootCIDFull` is the variant used by `uploadAndAddRootHandler`
(line 848) and `uploadFileToStorage` (line 1246): last line of the
trimmed output, trimmed, taken whole.

`parseRootCIDColon` is the variant used by `orchestrateHandler`
(line 1441): the portion of the last line before the first colon,
with no further trimming.
-/

/-- Content identifier extraction, whole-last-line variant (main.go:848,1246). -/
def parseRootCIDFull (out : String) : String :=
  goTrimSpace (lastLine (splitLines (goTrimSpace out)))

/-- Go `strings.SplitN(s, ":", 2)[0]`: prefix before the first colon. -/
def beforeFirstColon (s : String) : String :=
  ⟨s.data.takeWhile (fun c => !(c == ':'))⟩

/-- Content identifier extraction, before-first-colon variant (main.go:1441). -/
def parseRootCIDColon (out : String) : String :=
  beforeFirstColon (lastLine (splitLines (goTrimSpace out)))

/-- The fixed path segment scanned for in create-proof-set output (main.go:1365). -/
def locSegment : String := "/pdp/proof-sets/created/"

/-- The line scan of the transaction-handle parser (main.go:1360-1372): the
first trimmed line that starts with the Location marker and contains the
path segment yields the trimmed text after the segment; otherwise empty. -/
def findTxHash : List String → String
  | [] => ""
  | line :: rest =>
    if goStartsWith (goTrimSpace line) "Location:" then
      match goIndex (goTrimSpace line) locSegment with
      | some idx => goTrimSpace (goDrop (goTrimSpace line) (idx + locSegment.data.length))
      | none => findTxHash rest
    else findTxHash rest

/-- Transaction-handle extraction of orchestrateHandler (main.go:1360-1372). -/
def parseTxHash (out : String) : String := findTxHash (splitLines out)

/-- The case-insensitive confirmation marker of the poll loop (main.go:1395). -/
def createdMarker : String := "proofset created: true"

/-- The case-insensitive identifier marker of the poll loop (main.go:1398). -/
def idMarker : String := "proofset id: "

/-- Whether a status output reports the proof set as created (main.go:1395). -/
def pollMarker (sout : String) : Bool := goContains (goToLower sout) createdMarker

/-- Identifier extraction after a confirmed status (main.go:1398-1409):
text after the identifier marker up to the next newline or the end of the
buffer, trimmed; empty when the marker is absent. -/
def extractProofSetID (sout : String) : String :=
  match goIndex (goToLower sout) idMarker with
  | none => ""
  | some idx =>
    match goIndex (goDrop sout (idx + idMarker.data.length)) "\n" with
    | none => goTrimSpace (goDrop sout (idx + idMarker.data.length))
    | some idEnd => goTrimSpace (goTake (goDrop sout (idx + idMarker.data.length)) idEnd)

/-- Status-output extraction: `some id` when confirmed, `none` when the
output signals still pending (main.go:1395-1411). -/
def parseProofSetID (sout : String) : Option String :=
  if pollMarker sout then some (extractProofSetID sout) else none

/-!
External tool invocations are modelled by an oracle: a list of
`ToolResult` values, one per invocation the code would perform, in order.
`ToolResult.ok` is a zero exit status, `ToolResult.err` a failure; either
way the constructor carries the captured combined output, exactly as
`CombinedOutput` returns output alongside the error.
-/

/-- Result of one external pdptool invocation: exit status plus captured
combined output. -/
inductive ToolResult where
  | ok (output : String)
  | err (output : String)
deriving DecidableEq

/-- The captured combined output, available whether or not the call failed. -/
def toolOutput : ToolResult → String
  | .ok o => o
  | .err o => o

/-- The transient-failure substring recognized by the bind retry loops
(main.go:879,1276). -/
def notFoundMsg : String := "not found or does not belong to service"

/-- Outcome of the helper bind loop `addRootToProofSet`. -/
inductive BindOutcome where
  | success
  | failure (msg : String)
deriving DecidableEq

/-- The retry loop of `addRootToProofSet` (main.go:1259-1290), as a function
of the attempt oracle. Returns `none` when the oracle is shorter than the
number of invocations the loop performs; otherwise the invocation count,
the list of sleep durations in seconds, and the outcome. -/
def bindLoop (attempt inv : Nat) (sleeps : List Nat) :
    List ToolResult → Option (Nat × List Nat × BindOutcome)
  | [] =>
    if 3 < attempt then some (inv, sleeps, .failure "add-roots failed after 3 attempts")
    else none
  | r :: rest =>
    if 3 < attempt then some (inv, sleeps, .failure "add-roots failed after 3 attempts")
    else
      match r with
      | .ok _ => some (inv + 1, sleeps, .success)
      | .err out =>
        if goContains out notFoundMsg && attempt < 3 then
          bindLoop (attempt + 1) (inv + 1) (sleeps ++ [attempt * 2]) rest
        else some (inv + 1, sleeps, .failure ("add-roots failed: " ++ out))

/-- `addRootToProofSet` (main.go:1259-1290) with `maxRetries = 3`. -/
def addRootToProofSetM (rs : List ToolResult) : Option (Nat × List Nat × BindOutcome) :=
  bindLoop 1 0 [] rs

/-- Outcome of the inline bind loop of `uploadAndAddRootHandler`. -/
inductive InlineOutcome where
  | ok (arOut : String)
  | errResp (payload : String)
deriving DecidableEq

/-- The inline add-roots retry loop of `uploadAndAddRootHandler`
(main.go:860-915). A failure whose output lacks the transient substring
only returns when `attempt == maxRetries`; on earlier attempts the loop
falls through and re-invokes the tool without sleeping (main.go:885-896).
The first branch is the post-loop `!addRootsSuccess` return (main.go:904),
carrying the last captured output. -/
def inlineBindLoop (attempt inv : Nat) (sleeps : List Nat) (lastOut : String) :
    List ToolResult → Option (Nat × List Nat × InlineOutcome)
  | [] => if 3 < attempt then some (inv, sleeps, .errResp lastOut) else none
  | r :: rest =>
    if 3 < attempt then some (inv, sleeps, .errResp lastOut)
    else
      match r with
      | .ok out => some (inv + 1, sleeps, .ok out)
      | .err out =>
        if goContains out notFoundMsg && attempt < 3 then
          inlineBindLoop (attempt + 1) (inv + 1) (sleeps ++ [attempt * 2]) out rest
        else if attempt == 3 then some (inv + 1, sleeps, .errResp out)
        else inlineBindLoop (attempt + 1) (inv + 1) sleeps out rest

/-- The creation/poll loop of orchestrateHandler (main.go:1381-1413), as a
function of the status-invocation oracle. The invocation error is
discarded by the source (`statusOut, _ :=`), so only the captured output
is inspected; a non-matching output sleeps 3 seconds and polls again.
Returns `none` when the oracle runs out (the source would keep polling),
otherwise the poll count, sleep durations, and the extracted identifier. -/
def pollLoopR : List ToolResult → Option (Nat × List Nat × String)
  | [] => none
  | r :: rest =>
    if pollMarker (toolOutput r) then some (1, [], extractProofSetID (toolOutput r))
    else
      match pollLoopR rest with
      | none => none
      | some (n, sleeps, id) => some (n + 1, 3 :: sleeps, id)

/-- Result of staging the multipart stream into the temporary file
(`io.Copy`, main.go:819/1232). -/
inductive CopyResult where
  | ok
  | err
deriving DecidableEq

/-- Result of one metadata-store insert (`db.Exec`). -/
inductive DbResult where
  | ok
  | err (msg : String)
deriving DecidableEq

/-- The HTTP-level outcome of a handler: a success body, or a status code
with the JSON error payload. -/
inductive HttpResp where
  | ok (body : String)
  | err (status : Nat) (payload : String)
deriving DecidableEq

/-- Whether the display filename is recognized as pre-encrypted
(main.go:804,1220). -/
def isEncryptedName (name : String) : Bool := goHasSuffix (goToLower name) ".enc"

/-- Outcome of the shared upload helper. -/
inductive UploadOutcome where
  | ok (rootCID : String)
  | err (msg : String)
deriving DecidableEq

/-- `uploadFileToStorage` (main.go:1218-1256): stage the stream, run
upload-file, take the trimmed last output line as the content identifier,
and sleep a 3-second settle delay for pre-encrypted names. The second
component is the settle sleep in seconds performed after a successful
upload and before returning. A copy failure is terminal (the wrapped Go
error text is elided; the message prefix is kept). -/
def uploadFileToStorageM (name : String) (copyRes : CopyResult) (uploadRes : ToolResult) :
    UploadOutcome × Nat :=
  match copyRes with
  | .err => (.err "failed to copy file", 0)
  | .ok =>
    match uploadRes with
    | .err out => (.err ("upload-file failed: " ++ out), 0)
    | .ok out =>
      (.ok (parseRootCIDFull out), if isEncryptedName name then 3 else 0)

/-- Trace of one `uploadAndAddRootHandler` request: the HTTP outcome, the
settle sleep performed between upload and the first bind attempt, and the
add-roots invocation count and backoff sleeps. -/
structure RootTrace where
  resp : HttpResp
  settleSleep : Nat
  bindInvocations : Nat
  bindSleeps : List Nat
deriving DecidableEq

/-- `uploadAndAddRootHandler` (main.go:756-935) over explicit oracles: the
form proofSetID and filename, the staging copy result, the upload-file
result, the oracle of add-roots attempts, and the file_cids insert result.
The insert failure is only logged (main.go:921-926) and cannot influence
the response; a successful response body is the trimmed add-roots output. -/
def uploadAndAddRootHandlerM (proofSetID name : String) (copyRes : CopyResult)
    (uploadRes : ToolResult) (arRs : List ToolResult) (_fileIns : DbResult) :
    Option RootTrace :=
  if proofSetID == "" then some ⟨.err 400 "proofSetID is required", 0, 0, []⟩
  else
    match copyRes with
    | .err => some ⟨.err 500 "Failed to copy file", 0, 0, []⟩
    | .ok =>
      match uploadRes with
      | .err out => some ⟨.err 500 out, 0, 0, []⟩
      | .ok _ =>
        match inlineBindLoop 1 0 [] "" arRs with
        | none => none
        | some (n, sleeps, .errResp payload) =>
          some ⟨.err 500 payload, if isEncryptedName name then 3 else 0, n, sleeps⟩
        | some (n, sleeps, .ok arOut) =>
          some ⟨.ok (goTrimSpace arOut), if isEncryptedName name then 3 else 0, n, sleeps⟩

/-- `uploadAndAddPaperHandler` (main.go:938-1041) over explicit oracles.
The typed insert into `paper` aborts the request with a 500 on failure
(main.go:1018-1024); the file_cids insert is only logged (main.go:1027-1030). -/
def uploadAndAddPaperHandlerM (proofSetID title name : String) (copyRes : CopyResult)
    (uploadRes : ToolResult) (arRs : List ToolResult) (paperIns _fileIns : DbResult) :
    Option HttpResp :=
  if proofSetID == "" || title == "" then some (.err 400 "proofSetID and title are required")
  else
    match uploadFileToStorageM name copyRes uploadRes with
    | (.err e, _) => some (.err 500 e)
    | (.ok rootCID, _) =>
      match addRootToProofSetM arRs with
      | none => none
      | some (_, _, .failure e) => some (.err 500 e)
      | some (_, _, .success) =>
        match paperIns with
        | .err _ => some (.err 500 "Failed to save paper metadata")
        | .ok => some (.ok rootCID)

/-- `uploadAndAddGenomeHandler` (main.go:1044-1123) over explicit oracles;
the genome insert aborts with a 500 on failure (main.go:1101-1107), the
file_cids insert is only logged (main.go:1110-1113). -/
def uploadAndAddGenomeHandlerM (proofSetID organism name : String) (copyRes : CopyResult)
    (uploadRes : ToolResult) (arRs : List ToolResult) (genomeIns _fileIns : DbResult) :
    Option HttpResp :=
  if proofSetID == "" || organism == "" then
    some (.err 400 "proofSetID and organism are required")
  else
    match uploadFileToStorageM name copyRes uploadRes with
    | (.err e, _) => some (.err 500 e)
    | (.ok rootCID, _) =>
      match addRootToProofSetM arRs with
      | none => none
      | some (_, _, .failure e) => some (.err 500 e)
      | some (_, _, .success) =>
        match genomeIns with
        | .err _ => some (.err 500 "Failed to save genome metadata")
        | .ok => some (.ok rootCID)

/-- `uploadAndAddSpectrumHandler` (main.go:1126-1215) over explicit
oracles; `metadataOk` stands for the JSON validation of the metadata form
field (main.go:1156-1163); the spectrum insert aborts with a 500 on
failure (main.go:1193-1199), the file_cids insert is only logged
(main.go:1202-1205). -/
def uploadAndAddSpectrumHandlerM (proofSetID compound name : String) (metadataOk : Bool)
    (copyRes : CopyResult) (uploadRes : ToolResult) (arRs : List ToolResult)
    (spectrumIns _fileIns : DbResult) : Option HttpResp :=
  if proofSetID == "" || compound == "" then
    some (.err 400 "proofSetID and compound are required")
  else if !metadataOk then some (.err 400 "Invalid JSON metadata")
  else
    match uploadFileToStorageM name copyRes uploadRes with
    | (.err e, _) => some (.err 500 e)
    | (.ok rootCID, _) =>
      match addRootToProofSetM arRs with
      | none => none
      | some (_, _, .failure e) => some (.err 500 e)
      | some (_, _, .success) =>
        match spectrumIns with
        | .err _ => some (.err 500 "Failed to save spectrum metadata")
        | .ok => some (.ok rootCID)

/-- Outcome of the full orchestration flow. -/
inductive OrchResult where
  | httpErr (payload : String)
  | httpOk (txHash proofSetID rootCID addRoots : String)
  | hang
deriving DecidableEq

/-- `orchestrateHandler` (main.go:1333-1467) over explicit oracles:
create-proof-set result, the oracle of status invocations, the
upload-file result and the single add-roots result. The second component
counts status invocations performed; `hang` stands for the poll loop
outliving the oracle (the source would poll forever). Error payloads are
the fixed strings of the source, not the captured output. -/
def orchestrateM (createRes : ToolResult) (statusRs : List ToolResult)
    (uploadRes : ToolResult) (arRes : ToolResult) : OrchResult × Nat :=
  match createRes with
  | .err _ => (.httpErr "create-proof-set failed", 0)
  | .ok out =>
    if parseTxHash out == "" then (.httpErr "txHash parse failed", 0)
    else
      match pollLoopR statusRs with
      | none => (.hang, statusRs.length)
      | some (n, _, psID) =>
        match uploadRes with
        | .err _ => (.httpErr "upload-file failed", n)
        | .ok uOut =>
          match arRes with
          | .err _ => (.httpErr "add-roots failed", n)
          | .ok arOut =>
            (.httpOk (parseTxHash out) psID (parseRootCIDColon uOut) (goTrimSpace arOut), n)

/-- `pingHandler` (main.go:1470-1489): the error payload is the captured output. -/
def pingHandlerM : ToolResult → HttpResp
  | .err out => .err 500 out
  | .ok out => .ok out

/-- `createProofSetHandler` (main.go:1492-1513): the error payload is the
captured output. -/
def createProofSetHandlerM : ToolResult → HttpResp
  | .err out => .err 500 out
  | .ok out => .ok out

/-- `getProofSetStatusHandler` (main.go:1516-1531): the error payload is
the captured output. -/
def getProofSetStatusHandlerM : ToolResult → HttpResp
  | .err out => .err 500 out
  | .ok out => .ok out

/-- `uploadFileHandler` (main.go:1534-1571): the upload failure payload is
the fixed string, not the captured output. -/
def uploadFileHandlerM : ToolResult → HttpResp
  | .err _ => .err 500 "upload-file failed"
  | .ok out => .ok out

/-- `addRootsHandler` (main.go:1574-1599): the failure payload is the
fixed string, not the captured output. -/
def addRootsHandlerM : ToolResult → HttpResp
  | .err _ => .err 500 "add-roots failed"
  | .ok out => .ok out

/-!
Supporting lemmas about the string primitives.
-/

theorem isPrefixL_iff : ∀ (p s : List Char), isPrefixL p s = true ↔ ∃ t, s = p ++ t
  | [], s => by simp [isPrefixL]
  | _ :: _, [] => by simp [isPrefixL]
  | a :: as, b :: bs => by
    simp only [isPrefixL, Bool.and_eq_true, beq_iff_eq, isPrefixL_iff as bs,
      List.cons_append, List.cons.injEq]
    constructor
    · rintro ⟨rfl, t, rfl⟩
      exact ⟨t, rfl, rfl⟩
    · rintro ⟨t, rfl, rfl⟩
      exact ⟨rfl, t, rfl⟩

theorem subIndex_zero_of_leading {n s : List Char} (h : isPrefixL n s = true) :
    subIndex n s = some 0 := by
  cases s <;> simp [subIndex, h]

theorem subIndex_isSome_of_eq : ∀ (a n b : List Char),
    (subIndex n (a ++ n ++ b)).isSome = true
  | [], n, b => by
    have hp : isPrefixL n ([] ++ n ++ b) = true := by
      rw [isPrefixL_iff]
      exact ⟨b, by simp⟩
    rw [subIndex_zero_of_leading hp]
    rfl
  | c :: a, n, b => by
    by_cases hp : isPrefixL n ((c :: a) ++ n ++ b) = true
    · rw [subIndex_zero_of_leading hp]
      rfl
    · have hcons : (c :: a) ++ n ++ b = c :: (a ++ n ++ b) := by simp
      rw [hcons] at hp ⊢
      simp only [subIndex]
      rw [if_neg hp, Option.isSome_map']
      exact subIndex_isSome_of_eq a n b

theorem exists_of_subIndex_isSome : ∀ (s n : List Char),
    (subIndex n s).isSome = true → ∃ a b, s = a ++ n ++ b
  | [], n => by
    intro h
    simp only [subIndex] at h
    by_cases hp : isPrefixL n [] = true
    · obtain ⟨t, ht⟩ := (isPrefixL_iff n []).mp hp
      exact ⟨[], t, ht⟩
    · rw [if_neg hp] at h
      simp at h
  | c :: rest, n => by
    intro h
    simp only [subIndex] at h
    by_cases hp : isPrefixL n (c :: rest) = true
    · obtain ⟨t, ht⟩ := (isPrefixL_iff n (c :: rest)).mp hp
      exact ⟨[], t, by simpa using ht⟩
    · rw [if_neg hp, Option.isSome_map'] at h
      obtain ⟨a, b, hab⟩ := exists_of_subIndex_isSome rest n h
      exact ⟨c :: a, b, by simp [hab]⟩

theorem subIndex_isSome_iff (n s : List Char) :
    (subIndex n s).isSome = true ↔ ∃ a b, s = a ++ n ++ b := by
  constructor
  · exact exists_of_subIndex_isSome s n
  · rintro ⟨a, b, rfl⟩
    exact subIndex_isSome_of_eq a n b

theorem dataAppend (p s : String) : (p ++ s).data = p.data ++ s.data := by
  cases p
  cases s
  rfl

/-- Any string occurs in itself preceded by arbitrary text. -/
theorem goContains_append_self (p s : String) : goContains (p ++ s) s = true := by
  unfold goContains
  rw [dataAppend]
  have : p.data ++ s.data = p.data ++ s.data ++ [] := by simp
  rw [this]
  exact subIndex_isSome_of_eq p.data s.data []

/-- An occurrence of an extended pattern yields an occurrence of its tail part. -/
theorem subIndex_isSome_of_append {s x n : List Char}
    (h : (subIndex (x ++ n) s).isSome = true) : (subIndex n s).isSome = true := by
  obtain ⟨a, b, hab⟩ := exists_of_subIndex_isSome s (x ++ n) h
  rw [subIndex_isSome_iff]
  exact ⟨a ++ x, b, by simp [hab]⟩

/-- The poll confirmation marker contains the created marker, so a
confirmed output always contains "created: true". -/
theorem pollMarker_contains_created {s : String} (h : pollMarker s = true) :
    goContains (goToLower s) "created: true" = true := by
  unfold pollMarker goContains createdMarker at *
  have hm : ("proofset created: true").data = ("proofset ").data ++ ("created: true").data := by
    decide
  rw [hm] at h
  exact subIndex_isSome_of_append h

/-- Lines that neither start with the Location marker nor contain the path
segment are skipped by the transaction-handle scan. -/
theorem findTxHash_append_nomatch : ∀ (ls rest : List String),
    (∀ l ∈ ls, goStartsWith (goTrimSpace l) "Location:" = false ∨
      goContains (goTrimSpace l) locSegment = false) →
    findTxHash (ls ++ rest) = findTxHash rest
  | [], _, _ => rfl
  | l :: ls, rest, h => by
    have hl := h l (by simp)
    have htail : ∀ x ∈ ls, goStartsWith (goTrimSpace x) "Location:" = false ∨
        goContains (goTrimSpace x) locSegment = false :=
      fun x hx => h x (by simp [hx])
    by_cases hs : goStartsWith (goTrimSpace l) "Location:" = true
    · have hc : goContains (goTrimSpace l) locSegment = false := by
        rcases hl with hl | hl
        · rw [hs] at hl
          exact absurd hl (by simp)
        · exact hl
      have hgi : goIndex (goTrimSpace l) locSegment = none := by
        unfold goContains at hc
        unfold goIndex
        cases hsi : subIndex locSegment.data (goTrimSpace l).data
        · rfl
        · rw [hsi] at hc
          simp at hc
      rw [List.cons_append]
      simp only [findTxHash, hs, hgi, if_true]
      exact findTxHash_append_nomatch ls rest htail
    · have hs2 : goStartsWith (goTrimSpace l) "Location:" = false := by
        simpa using hs
      rw [List.cons_append]
      simp only [findTxHash, hs2]
      simp only [Bool.false_eq_true, if_false]
      exact findTxHash_append_nomatch ls rest htail

/-!
Lemmas about the newline split and about trimming, used for the
idempotence analysis of the content-identifier extraction.
-/

theorem splitOnNL_ne_nil : ∀ l : List Char, splitOnNL l ≠ []
  | [] => by simp [splitOnNL]
  | c :: rest => by
    simp only [splitOnNL]
    by_cases hc : (c == '\n') = true
    · simp [hc]
    · simp only [hc]
      cases hs : splitOnNL rest
      · exact absurd hs (splitOnNL_ne_nil rest)
      · simp

theorem mem_splitOnNL_no_nl : ∀ (l piece : List Char), piece ∈ splitOnNL l → '\n' ∉ piece
  | [], piece => by
    intro h
    simp [splitOnNL] at h
    simp [h]
  | c :: rest, piece => by
    intro h
    simp only [splitOnNL] at h
    by_cases hc : (c == '\n') = true
    · rw [if_pos hc] at h
      rcases List.mem_cons.mp h with rfl | h2
      · simp
      · exact mem_splitOnNL_no_nl rest piece h2
    · rw [if_neg hc] at h
      cases hs : splitOnNL rest with
      | nil => exact absurd hs (splitOnNL_ne_nil rest)
      | cons hd tl =>
        rw [hs] at h
        rcases List.mem_cons.mp h with rfl | h2
        · intro hmem
          rcases List.mem_cons.mp hmem with heq | h3
          · exact hc (beq_iff_eq.mpr heq.symm)
          · exact mem_splitOnNL_no_nl rest hd (by rw [hs]; simp) h3
        · exact mem_splitOnNL_no_nl rest piece (by rw [hs]; simp [h2])

theorem splitOnNL_eq_single : ∀ l : List Char, '\n' ∉ l → splitOnNL l = [l]
  | [], _ => rfl
  | c :: rest, h => by
    have hc : (c == '\n') = false := by
      simp only [beq_eq_false_iff_ne, ne_eq]
      intro hceq
      exact h (by simp [hceq])
    have hrest : splitOnNL rest = [rest] :=
      splitOnNL_eq_single rest (fun hmem => h (by simp [hmem]))
    simp [splitOnNL, hc, hrest]
theorem mem_of_mem_dropWhile {α : Type*} {p : α → Bool} :
    ∀ (l : List α) (a : α), a ∈ l.dropWhile p → a ∈ l
  | [], a => by simp
  | c :: t, a => by
    intro h
    rw [List.dropWhile_cons] at h
    cases hc : p c
    · simp only [hc, Bool.false_eq_true, if_false] at h
      exact h
    · simp only [hc, if_true] at h
      exact List.mem_cons_of_mem c (mem_of_mem_dropWhile t a h)

theorem mem_trimL {l : List Char} {a : Char} (h : a ∈ trimL l) : a ∈ l := by
  unfold trimL at h
  rw [List.mem_reverse] at h
  have h2 := mem_of_mem_dropWhile _ _ h
  rw [List.mem_reverse] at h2
  exact mem_of_mem_dropWhile _ _ h2

theorem headDropWhile {α : Type*} {p : α → Bool} : ∀ (l : List α) (a : α),
    (l.dropWhile p).head? = some a → p a = false
  | [], a => by simp
  | c :: t, a => by
    intro h
    rw [List.dropWhile_cons] at h
    cases hc : p c
    · simp only [hc, Bool.false_eq_true, if_false, List.head?_cons,
        Option.some.injEq] at h
      rw [← h]
      exact hc
    · simp only [hc, if_true] at h
      exact headDropWhile t a h

theorem lastDropWhile {α : Type*} {p : α → Bool} : ∀ l : List α,
    l.dropWhile p = [] ∨ (l.dropWhile p).getLast? = l.getLast?
  | [] => Or.inl rfl
  | c :: t => by
    cases hc : p c
    · right
      rw [List.dropWhile_cons]
      simp [hc]
    · rw [List.dropWhile_cons]
      simp only [hc, if_true]
      rcases lastDropWhile (p := p) t with h | h
      · exact Or.inl h
      · cases hdw : t.dropWhile p with
        | nil => exact Or.inl rfl
        | cons hd tl =>
          right
          rw [← hdw, h]
          cases t with
          | nil => simp at hdw
          | cons b t2 => rw [List.getLast?_cons_cons]

theorem dropWhile_eq_self_of_head {α : Type*} {p : α → Bool} :
    ∀ l : List α, (∀ a, l.head? = some a → p a = false) → l.dropWhile p = l
  | [], _ => rfl
  | c :: t, h => by
    have hc : p c = false := h c rfl
    rw [List.dropWhile_cons]
    simp [hc]

theorem trimL_head {l : List Char} {a : Char} (h : (trimL l).head? = some a) :
    isSpaceChar a = false := by
  unfold trimL at h
  rw [List.head?_reverse] at h
  rcases lastDropWhile (p := isSpaceChar) ((l.dropWhile isSpaceChar).reverse) with h2 | h2
  · rw [h2] at h
    simp at h
  · rw [h2, List.getLast?_reverse] at h
    exact headDropWhile _ _ h

theorem trimL_last {l : List Char} {a : Char} (h : (trimL l).getLast? = some a) :
    isSpaceChar a = false := by
  unfold trimL at h
  rw [List.getLast?_reverse] at h
  exact headDropWhile _ _ h

theorem trimL_idem (l : List Char) : trimL (trimL l) = trimL l := by
  have h1 : (trimL l).dropWhile isSpaceChar = trimL l :=
    dropWhile_eq_self_of_head _ (fun _ ha => trimL_head ha)
  have h2 : ((trimL l).reverse).dropWhile isSpaceChar = (trimL l).reverse :=
    dropWhile_eq_self_of_head _ (fun _ ha => trimL_last (by rwa [List.head?_reverse] at ha))
  show ((((trimL l).dropWhile isSpaceChar).reverse).dropWhile isSpaceChar).reverse = trimL l
  rw [h1, h2, List.reverse_reverse]

theorem mem_takeWhileL {α : Type*} {p : α → Bool} : ∀ (l : List α) (a : α),
    a ∈ l.takeWhile p → a ∈ l ∧ p a = true
  | [], a => by simp
  | c :: t, a => by
    intro h
    rw [List.takeWhile_cons] at h
    cases hc : p c
    · simp only [hc, Bool.false_eq_true, if_false] at h
      simp at h
    · simp only [hc, if_true] at h
      rcases List.mem_cons.mp h with rfl | h2
      · exact ⟨by simp, hc⟩
      · obtain ⟨hm, hp⟩ := mem_takeWhileL t a h2
        exact ⟨by simp [hm], hp⟩

theorem takeWhile_all {α : Type*} {p : α → Bool} : ∀ l : List α,
    (∀ a ∈ l, p a = true) → l.takeWhile p = l
  | [], _ => rfl
  | c :: t, h => by
    have hc : p c = true := h c (by simp)
    rw [List.takeWhile_cons]
    simp [hc, takeWhile_all t (fun a ha => h a (by simp [ha]))]

theorem getLastQmem {α : Type*} : ∀ l : List α, l ≠ [] → ∃ x, l.getLast? = some x ∧ x ∈ l
  | [], h => absurd rfl h
  | [a], _ => ⟨a, by simp, by simp⟩
  | a :: b :: t, _ => by
    obtain ⟨x, h1, h2⟩ := getLastQmem (b :: t) (by simp)
    exact ⟨x, by rw [List.getLast?_cons_cons]; exact h1, List.mem_cons_of_mem a h2⟩

theorem getLastQ_map {α β : Type*} (f : α → β) : ∀ l : List α,
    (l.map f).getLast? = (l.getLast?).map f
  | [] => rfl
  | [a] => by simp
  | a :: b :: t => by
    rw [List.map_cons, List.map_cons, List.getLast?_cons_cons, List.getLast?_cons_cons,
      ← List.map_cons]
    exact getLastQ_map f (b :: t)

/-- The last line of a split is one of the split pieces. -/
theorem lastLine_splitLines (s : String) :
    ∃ piece, piece ∈ splitOnNL s.data ∧ lastLine (splitLines s) = ⟨piece⟩ := by
  obtain ⟨x, h1, h2⟩ := getLastQmem (splitOnNL s.data) (splitOnNL_ne_nil s.data)
  refine ⟨x, h2, ?_⟩
  unfold lastLine splitLines
  rw [getLastQ_map, h1]
  rfl

/-- Structure of the whole-last-line extraction: its result is the trim of
one newline-free piece of the trimmed output. -/
theorem parseRootCIDFull_eq (out : String) :
    ∃ piece, piece ∈ splitOnNL (trimL out.data) ∧ parseRootCIDFull out = ⟨trimL piece⟩ := by
  obtain ⟨piece, hmem, heq⟩ := lastLine_splitLines (goTrimSpace out)
  refine ⟨piece, hmem, ?_⟩
  unfold parseRootCIDFull
  rw [heq]
  rfl

/-- Structure of the before-first-colon extraction. -/
theorem parseRootCIDColon_eq (out : String) :
    ∃ piece, piece ∈ splitOnNL (trimL out.data) ∧
      parseRootCIDColon out = ⟨piece.takeWhile (fun c => !(c == ':'))⟩ := by
  obtain ⟨piece, hmem, heq⟩ := lastLine_splitLines (goTrimSpace out)
  refine ⟨piece, hmem, ?_⟩
  unfold parseRootCIDColon
  rw [heq]
  rfl

/-- A newline-free, already-trimmed string is a fixed point of the
whole-last-line extraction. -/
theorem parseRootCIDFull_fix {s : String} (h1 : '\n' ∉ s.data)
    (h2 : trimL s.data = s.data) : parseRootCIDFull s = s := by
  have hts : goTrimSpace s = s := by
    unfold goTrimSpace
    rw [h2]
  unfold parseRootCIDFull
  rw [hts]
  have hsl : splitLines s = [s] := by
    unfold splitLines
    rw [splitOnNL_eq_single s.data h1]
    rfl
  rw [hsl]
  have hll : lastLine [s] = s := by simp [lastLine]
  rw [hll]
  exact hts

/-- Helper bind loop: three consecutive transient failures exhaust the
attempts and surface the third output. -/
theorem bindExhaust {o1 o2 o3 : String} (rs : List ToolResult)
    (h1 : goContains o1 notFoundMsg = true) (h2 : goContains o2 notFoundMsg = true)
    (h3 : goContains o3 notFoundMsg = true) :
    addRootToProofSetM (.err o1 :: .err o2 :: .err o3 :: rs)
      = some (3, [2, 4], .failure ("add-roots failed: " ++ o3)) := by
  unfold addRootToProofSetM
  simp [bindLoop, h1, h2, h3]

/-- Inline bind loop: three consecutive transient failures exhaust the
attempts and surface the third output. -/
theorem inlineExhaust {o1 o2 o3 : String} (rs : List ToolResult)
    (h1 : goContains o1 notFoundMsg = true) (h2 : goContains o2 notFoundMsg = true)
    (h3 : goContains o3 notFoundMsg = true) :
    inlineBindLoop 1 0 [] "" (.err o1 :: .err o2 :: .err o3 :: rs)
      = some (3, [2, 4], .errResp o3) := by
  simp [inlineBindLoop, h1, h2, h3]

example : splitLines "a\nb\n" = ["a", "b", ""] := by decide
example : goToLower "ProofSet Id: 7" = "proofset id: 7" := by decide
example : goHasSuffix (goToLower "A.ENC") ".enc" = true := by decide
example : parseRootCIDFull "log line\n  cid-xyz \n" = "cid-xyz" := by decide
example : parseRootCIDColon "log\nbafy:extra" = "bafy" := by decide
example : parseTxHash "junk\nLocation: http://h/pdp/proof-sets/created/0xAB \n" = "0xAB" := by decide
example : parseProofSetID "ProofSet Created: true\nProofSet Id: 42" = some "42" := by decide
example : parseProofSetID "Transaction pending" = none := by decide
example : addRootToProofSetM [.err "x not found or does not belong to service y", .ok "done"]
    = some (2, [2], .success) := by decide
example : inlineBindLoop 1 0 [] "" [.err "other error", .ok "done"]
    = some (2, [], .ok "done") := by decide
example : pollLoopR [.err "pending", .ok "ProofSet Created: true\nProofSet Id: 7"]
    = some (2, [3], "7") := by decide

/-- Evaluation of the before-first-colon extraction on a newline-free
buffer. -/
theorem parseRootCIDColon_eval {s : String} (h1 : '\n' ∉ s.data) :
    parseRootCIDColon s = ⟨(trimL s.data).takeWhile (fun c => !(c == ':'))⟩ := by
  unfold parseRootCIDColon
  have hsl : splitLines (goTrimSpace s) = [⟨trimL s.data⟩] := by
    unfold splitLines
    rw [show (goTrimSpace s).data = trimL s.data from rfl]
    rw [splitOnNL_eq_single _ (fun hm => h1 (mem_trimL hm))]
    rfl
  rw [hsl]
  have hll : lastLine [(⟨trimL s.data⟩ : String)] = ⟨trimL s.data⟩ := by
    simp [lastLine]
  rw [hll]
  rfl

/-!
Claim theorems.
-/

/-- C1: when every add-roots failure output contains the transient
substring, both bind-root implementations perform exactly
min(3, attempts until success) invocations, sleep attempt*2 seconds
between consecutive attempts (2s after attempt 1, 4s after attempt 2),
and on exhaustion return an error carrying the third attempt output. -/
theorem claim_C1 :
    (∀ (o : String) (rs : List ToolResult),
      addRootToProofSetM (.ok o :: rs) = some (1, [], .success)) ∧
    (∀ (o1 o : String) (rs : List ToolResult), goContains o1 notFoundMsg = true →
      addRootToProofSetM (.err o1 :: .ok o :: rs) = some (2, [2], .success)) ∧
    (∀ (o1 o2 o : String) (rs : List ToolResult),
      goContains o1 notFoundMsg = true → goContains o2 notFoundMsg = true →
      addRootToProofSetM (.err o1 :: .err o2 :: .ok o :: rs)
        = some (3, [2, 4], .success)) ∧
    (∀ (o1 o2 o3 : String) (rs : List ToolResult),
      goContains o1 notFoundMsg = true → goContains o2 notFoundMsg = true →
      goContains o3 notFoundMsg = true →
      addRootToProofSetM (.err o1 :: .err o2 :: .err o3 :: rs)
        = some (3, [2, 4], .failure ("add-roots failed: " ++ o3))) ∧
    (∀ (o : String) (rs : List ToolResult),
      inlineBindLoop 1 0 [] "" (.ok o :: rs) = some (1, [], .ok o)) ∧
    (∀ (o1 o : String) (rs : List ToolResult), goContains o1 notFoundMsg = true →
      inlineBindLoop 1 0 [] "" (.err o1 :: .ok o :: rs) = some (2, [2], .ok o)) ∧
    (∀ (o1 o2 o : String) (rs : List ToolResult),
      goContains o1 notFoundMsg = true → goContains o2 notFoundMsg = true →
      inlineBindLoop 1 0 [] "" (.err o1 :: .err o2 :: .ok o :: rs)
        = some (3, [2, 4], .ok o)) ∧
    (∀ (o1 o2 o3 : String) (rs : List ToolResult),
      goContains o1 notFoundMsg = true → goContains o2 notFoundMsg = true →
      goContains o3 notFoundMsg = true →
      inlineBindLoop 1 0 [] "" (.err o1 :: .err o2 :: .err o3 :: rs)
        = some (3, [2, 4], .errResp o3)) := by
  refine ⟨?_, ?_, ?_, ?_, ?_, ?_, ?_, ?_⟩
  · intro o rs
    simp [addRootToProofSetM, bindLoop]
  · intro o1 o rs h1
    simp [addRootToProofSetM, bindLoop, h1]
  · intro o1 o2 o rs h1 h2
    simp [addRootToProofSetM, bindLoop, h1, h2]
  · intro o1 o2 o3 rs h1 h2 h3
    exact bindExhaust rs h1 h2 h3
  · intro o rs
    simp [inlineBindLoop]
  · intro o1 o rs h1
    simp [inlineBindLoop, h1]
  · intro o1 o2 o rs h1 h2
    simp [inlineBindLoop, h1, h2]
  · intro o1 o2 o3 rs h1 h2 h3
    exact inlineExhaust rs h1 h2 h3

/-- Witness for C1: both bind loops at three concrete transient failures. -/
theorem claim_C1_witness :
    addRootToProofSetM [.err notFoundMsg, .err notFoundMsg, .err notFoundMsg]
      = some (3, [2, 4], .failure ("add-roots failed: " ++ notFoundMsg)) ∧
    inlineBindLoop 1 0 [] "" [.err notFoundMsg, .err notFoundMsg, .err notFoundMsg]
      = some (3, [2, 4], .errResp notFoundMsg) :=
  ⟨claim_C1.2.2.2.1 notFoundMsg notFoundMsg notFoundMsg []
      (by decide) (by decide) (by decide),
    claim_C1.2.2.2.2.2.2.2 notFoundMsg notFoundMsg notFoundMsg []
      (by decide) (by decide) (by decide)⟩

/-- C2 (code behavior at the failing input): in the inline retry loop of
uploadAndAddRootHandler a first-attempt failure whose output lacks the
transient substring is NOT returned immediately; the loop re-invokes
add-roots (2 invocations, no sleep) and can even go on to succeed. The
helper addRootToProofSet, by contrast, returns the same failure at once
after a single invocation. -/
theorem claim_C2_code_behavior :
    inlineBindLoop 1 0 [] "" [.err "permission denied", .ok "added"]
      = some (2, [], .ok "added") ∧
    addRootToProofSetM [.err "permission denied", .ok "added"]
      = some (1, [], .failure ("add-roots failed: permission denied")) := by
  constructor
  · decide
  · decide

/-- C5: when the first two status invocations lack the case-insensitive
confirmation marker and the third output reads
"ProofSet Created: true" together with "ProofSet Id: 7", the poll loop
invokes the status command exactly three times, sleeps 3 seconds after
each of the two pending results, and exits with identifier "7". -/
theorem claim_C5 (r1 r2 : ToolResult) (rest : List ToolResult)
    (h1 : pollMarker (toolOutput r1) = false)
    (h2 : pollMarker (toolOutput r2) = false) :
    pollLoopR (r1 :: r2 :: .ok "ProofSet Created: true\nProofSet Id: 7" :: rest)
      = some (3, [3, 3], "7") := by
  have hm : pollMarker (toolOutput (.ok "ProofSet Created: true\nProofSet Id: 7")) = true := by
    decide
  have he : extractProofSetID (toolOutput (.ok "ProofSet Created: true\nProofSet Id: 7"))
      = "7" := by decide
  simp [pollLoopR, h1, h2, hm, he]

/-- Witness for C5: two concrete pending outputs then the confirmation. -/
theorem claim_C5_witness :
    pollLoopR [.ok "Transaction pending", .err "",
        .ok "ProofSet Created: true\nProofSet Id: 7"]
      = some (3, [3, 3], "7") :=
  claim_C5 (.ok "Transaction pending") (.err "") [] (by decide) (by decide)

/-- C10: the poll loop ignores the invocation status of the status
command entirely: a failed invocation is handled exactly like a
successful one with the same output, and any output lacking the
confirmation marker (including a failed or empty one) makes the loop
sleep 3 seconds and poll again rather than surface an error. -/
theorem claim_C10 :
    (∀ (r : ToolResult) (rest : List ToolResult), pollMarker (toolOutput r) = false →
      pollLoopR (r :: rest)
        = (pollLoopR rest).map (fun x => (x.1 + 1, 3 :: x.2.1, x.2.2))) ∧
    (∀ (o : String) (rest : List ToolResult),
      pollLoopR (.err o :: rest) = pollLoopR (.ok o :: rest)) := by
  constructor
  · intro r rest h
    cases hp : pollLoopR rest with
    | none => simp [pollLoopR, h, hp]
    | some v => simp [pollLoopR, h, hp]
  · intro o rest
    simp [pollLoopR, toolOutput]

/-- Witness for C10: a failed empty status invocation is treated as
pending, not as an error. -/
theorem claim_C10_witness :
    pollLoopR [ToolResult.err ""] = none ∧
    pollLoopR [ToolResult.err "boom", .ok "ProofSet Created: true\nProofSet Id: 9"]
      = some (2, [3], "9") := by
  constructor
  · have h := claim_C10.1 (ToolResult.err "") [] (by decide)
    simpa using h
  · have h := claim_C10.2 "boom" [.ok "ProofSet Created: true\nProofSet Id: 9"]
    rw [h]
    decide

/-- C6: the transaction-handle parser returns the empty string whenever no
trimmed line both starts with the Location marker and contains the path
segment; a buffer whose first matching line is
"Location: .../pdp/proof-sets/created/ABC123" yields exactly "ABC123";
and an empty extracted handle terminates the orchestration with the parse
error before any status poll is performed. -/
theorem claim_C6 :
    (∀ out : String,
      (∀ l ∈ splitLines out, goStartsWith (goTrimSpace l) "Location:" = false ∨
        goContains (goTrimSpace l) locSegment = false) →
      parseTxHash out = "") ∧
    (∀ pre post : List String,
      (∀ l ∈ pre, goStartsWith (goTrimSpace l) "Location:" = false ∨
        goContains (goTrimSpace l) locSegment = false) →
      findTxHash (pre ++ "Location: .../pdp/proof-sets/created/ABC123" :: post)
        = "ABC123") ∧
    (∀ (out : String) (s : List ToolResult) (u a : ToolResult), parseTxHash out = "" →
      orchestrateM (.ok out) s u a = (.httpErr "txHash parse failed", 0)) := by
  refine ⟨?_, ?_, ?_⟩
  · intro out h
    unfold parseTxHash
    have hn := findTxHash_append_nomatch (splitLines out) [] h
    rw [List.append_nil] at hn
    rw [hn]
    rfl
  · intro pre post h
    rw [findTxHash_append_nomatch pre _ h]
    have hs : goStartsWith (goTrimSpace "Location: .../pdp/proof-sets/created/ABC123")
        "Location:" = true := by decide
    have hi : goIndex (goTrimSpace "Location: .../pdp/proof-sets/created/ABC123")
        locSegment = some 13 := by decide
    simp only [findTxHash, hs, hi, if_true]
    decide
  · intro out s u a h
    simp only [orchestrateM]
    rw [h]
    simp

/-- Witness for C6: a buffer with no matching line parses to empty, a
noise line followed by the Location line parses to the handle, and the
empty handle aborts a concrete orchestration with zero status polls. -/
theorem claim_C6_witness :
    parseTxHash "some noise\nLocation: without the segment\n/pdp/proof-sets/created/ alone" = "" ∧
    findTxHash (["some noise"] ++ "Location: .../pdp/proof-sets/created/ABC123" :: ["tail"])
      = "ABC123" ∧
    orchestrateM (.ok "no marker here") [.ok "ProofSet Created: true"] (.ok "cid") (.ok "done")
      = (.httpErr "txHash parse failed", 0) :=
  ⟨claim_C6.1 _ (by decide), claim_C6.2.1 ["some noise"] ["tail"] (by decide),
    claim_C6.2.2 "no marker here" [.ok "ProofSet Created: true"] (.ok "cid") (.ok "done")
      (by decide)⟩

/-- C7: the status-output extraction yields identifier "42" on the
canonical confirmed buffer, and any output that lacks the
case-insensitive "created: true" substring is reported as still pending
rather than as an error. -/
theorem claim_C7 :
    parseProofSetID "ProofSet Created: true\nProofSet Id: 42" = some "42" ∧
    (∀ sout : String, goContains (goToLower sout) "created: true" = false →
      parseProofSetID sout = none) := by
  constructor
  · decide
  · intro sout h
    have hm : pollMarker sout = false := by
      cases hp : pollMarker sout
      · rfl
      · exact absurd (pollMarker_contains_created hp) (by simp [h])
    simp [parseProofSetID, hm]

/-- Witness for C7: a concrete pending output. -/
theorem claim_C7_witness :
    parseProofSetID "Transaction still pending" = none :=
  claim_C7.2 "Transaction still pending" (by decide)

/-- C8: a display filename ending case-insensitively in ".enc" makes the
upload step sleep the 3-second settle delay after a successful upload
(before returning the identifier, and in the inline handler before any
bind attempt); any other filename incurs zero settle delay. Both the
shared helper and the inline handler are covered. -/
theorem claim_C8 :
    (∀ (name out : String), isEncryptedName name = true →
      uploadFileToStorageM name .ok (.ok out) = (.ok (parseRootCIDFull out), 3)) ∧
    (∀ (name : String) (c : CopyResult) (u : ToolResult), isEncryptedName name = false →
      (uploadFileToStorageM name c u).2 = 0) ∧
    (∀ (psID name upOut : String) (arRs : List ToolResult) (db : DbResult) (tr : RootTrace),
      (psID == "") = false → isEncryptedName name = true →
      uploadAndAddRootHandlerM psID name .ok (.ok upOut) arRs db = some tr →
      tr.settleSleep = 3) ∧
    (∀ (psID name : String) (c : CopyResult) (u : ToolResult) (arRs : List ToolResult)
      (db : DbResult) (tr : RootTrace), isEncryptedName name = false →
      uploadAndAddRootHandlerM psID name c u arRs db = some tr →
      tr.settleSleep = 0) := by
  refine ⟨?_, ?_, ?_, ?_⟩
  · intro name out h
    simp [uploadFileToStorageM, h]
  · intro name c u h
    cases c
    · cases u
      · simp [uploadFileToStorageM, h]
      · simp [uploadFileToStorageM]
    · simp [uploadFileToStorageM]
  · intro psID name upOut arRs db tr hps henc heq
    simp only [uploadAndAddRootHandlerM, hps, Bool.false_eq_true, if_false] at heq
    cases hbl : inlineBindLoop 1 0 [] "" arRs with
    | none =>
      rw [hbl] at heq
      simp at heq
    | some v =>
      obtain ⟨n, sleeps, oc⟩ := v
      rw [hbl] at heq
      cases oc with
      | ok arOut =>
        simp only [Option.some.injEq] at heq
        rw [← heq]
        simp [henc]
      | errResp p =>
        simp only [Option.some.injEq] at heq
        rw [← heq]
        simp [henc]
  · intro psID name c u arRs db tr henc heq
    by_cases hps : (psID == "") = true
    · simp only [uploadAndAddRootHandlerM, hps, if_true, Option.some.injEq] at heq
      rw [← heq]
    · have hps2 : (psID == "") = false := by simpa using hps
      simp only [uploadAndAddRootHandlerM, hps2, Bool.false_eq_true, if_false] at heq
      cases c with
      | err =>
        simp only [Option.some.injEq] at heq
        rw [← heq]
      | ok =>
        cases u with
        | err out =>
          simp only [Option.some.injEq] at heq
          rw [← heq]
        | ok upOut =>
          cases hbl : inlineBindLoop 1 0 [] "" arRs with
          | none =>
            rw [hbl] at heq
            simp at heq
          | some v =>
            obtain ⟨n, sleeps, oc⟩ := v
            rw [hbl] at heq
            cases oc with
            | ok arOut =>
              simp only [Option.some.injEq] at heq
              rw [← heq]
              simp [henc]
            | errResp p =>
              simp only [Option.some.injEq] at heq
              rw [← heq]
              simp [henc]

/-- Witness for C8: a concrete encrypted and a concrete plain filename. -/
theorem claim_C8_witness :
    uploadFileToStorageM "data.ENC" .ok (.ok "cid-9") = (.ok "cid-9", 3) ∧
    (uploadFileToStorageM "data.bin" .ok (.ok "cid-9")).2 = 0 ∧
    RootTrace.settleSleep ⟨.ok "done", 3, 1, []⟩ = 3 ∧
    RootTrace.settleSleep ⟨.ok "done", 0, 1, []⟩ = 0 :=
  ⟨claim_C8.1 "data.ENC" "cid-9" (by decide),
    claim_C8.2.1 "data.bin" .ok (.ok "cid-9") (by decide),
    claim_C8.2.2.1 "5" "g.enc" "cid" [.ok "done"] .ok ⟨.ok "done", 3, 1, []⟩
      (by decide) (by decide) (by decide),
    claim_C8.2.2.2 "5" "g.bin" .ok (.ok "cid") [.ok "done"] .ok ⟨.ok "done", 0, 1, []⟩
      (by decide) (by decide)⟩

/-- C3 counterexample: with upload and bind succeeded, a failing typed
insert into `paper` makes uploadAndAddPaperHandler report a 500 error,
not success — the typed-record insert is fatal, contradicting the claim
that both inserts are non-fatal. -/
theorem claim_C3_counterexample :
    uploadAndAddPaperHandlerM "1" "T" "f.pdf" .ok (.ok "cid-1") [.ok "added"]
      (.err "duplicate key") .ok
      = some (.err 500 "Failed to save paper metadata") := by
  decide

/-- C3 amended: after a successful upload and bind, a failing file-mapping
(file_cids) insert is non-fatal in all four handlers, but a failing
typed-record insert in the paper, genome and spectrum handlers aborts the
request with a 500 error (uploadAndAddRootHandler performs no typed
insert). -/
theorem claim_C3_amended :
    (∀ db : DbResult,
      uploadAndAddRootHandlerM "1" "f.bin" .ok (.ok "cid-1") [.ok "added"] db
        = some ⟨.ok "added", 0, 1, []⟩) ∧
    (∀ db : DbResult,
      uploadAndAddPaperHandlerM "1" "T" "f.pdf" .ok (.ok "cid-1") [.ok "added"] .ok db
        = some (.ok "cid-1")) ∧
    (∀ (m : String) (db : DbResult),
      uploadAndAddPaperHandlerM "1" "T" "f.pdf" .ok (.ok "cid-1") [.ok "added"]
        (.err m) db = some (.err 500 "Failed to save paper metadata")) ∧
    (∀ db : DbResult,
      uploadAndAddGenomeHandlerM "1" "E. coli" "g.fa" .ok (.ok "cid-1") [.ok "added"] .ok db
        = some (.ok "cid-1")) ∧
    (∀ (m : String) (db : DbResult),
      uploadAndAddGenomeHandlerM "1" "E. coli" "g.fa" .ok (.ok "cid-1") [.ok "added"]
        (.err m) db = some (.err 500 "Failed to save genome metadata")) ∧
    (∀ db : DbResult,
      uploadAndAddSpectrumHandlerM "1" "caffeine" "s.jdx" true .ok (.ok "cid-1")
        [.ok "added"] .ok db = some (.ok "cid-1")) ∧
    (∀ (m : String) (db : DbResult),
      uploadAndAddSpectrumHandlerM "1" "caffeine" "s.jdx" true .ok (.ok "cid-1")
        [.ok "added"] (.err m) db
        = some (.err 500 "Failed to save spectrum metadata")) := by
  refine ⟨?_, ?_, ?_, ?_, ?_, ?_, ?_⟩
  · intro db
    rfl
  · intro db
    rfl
  · intro m db
    rfl
  · intro db
    rfl
  · intro m db
    rfl
  · intro db
    rfl
  · intro m db
    rfl

/-- C9 counterexample: the before-first-colon variant is not idempotent.
On the buffer "x\n cid" it extracts " cid"; re-parsing " cid" yields
"cid", a different identifier. -/
theorem claim_C9_counterexample :
    parseRootCIDColon (parseRootCIDColon "x\n cid") ≠ parseRootCIDColon "x\n cid" := by
  decide

/-- C9 amended: the whole-last-line extraction is idempotent; the
before-first-colon extraction of orchestrateHandler satisfies only
reparse = trim of the first parse, so it is idempotent exactly when its
result carries no surrounding whitespace (the last output line may keep
leading whitespace, which a reparse strips). -/
theorem claim_C9_amended :
    (∀ out : String, parseRootCIDFull (parseRootCIDFull out) = parseRootCIDFull out) ∧
    (∀ out : String,
      parseRootCIDColon (parseRootCIDColon out) = goTrimSpace (parseRootCIDColon out)) := by
  constructor
  · intro out
    obtain ⟨piece, hmem, heq⟩ := parseRootCIDFull_eq out
    rw [heq]
    apply parseRootCIDFull_fix
    · intro hmemNL
      exact mem_splitOnNL_no_nl _ piece hmem (mem_trimL hmemNL)
    · exact trimL_idem piece
  · intro out
    obtain ⟨piece, hmem, heq⟩ := parseRootCIDColon_eq out
    rw [heq]
    have hnoNL : '\n' ∉ (⟨piece.takeWhile (fun c => !(c == ':'))⟩ : String).data := by
      intro hm
      exact mem_splitOnNL_no_nl _ piece hmem (mem_takeWhileL piece '\n' hm).1
    rw [parseRootCIDColon_eval hnoNL]
    have htw : (trimL (piece.takeWhile (fun c => !(c == ':')))).takeWhile
        (fun c => !(c == ':')) = trimL (piece.takeWhile (fun c => !(c == ':'))) :=
      takeWhile_all _ (fun a ha => (mem_takeWhileL piece a (mem_trimL ha)).2)
    show (⟨(trimL (piece.takeWhile (fun c => !(c == ':')))).takeWhile
        (fun c => !(c == ':'))⟩ : String)
      = goTrimSpace ⟨piece.takeWhile (fun c => !(c == ':'))⟩
    rw [htw]
    rfl

/-- C4 counterexample: a create-proof-set failure in orchestrateHandler
returns the fixed payload "create-proof-set failed", which does not
contain the captured output "boom-xyz" — the raw output is not included. -/
theorem claim_C4_counterexample :
    orchestrateM (.err "boom-xyz") [] (.ok "") (.ok "")
      = (.httpErr "create-proof-set failed", 0) ∧
    goContains "create-proof-set failed" "boom-xyz" = false := by
  constructor
  · rfl
  · decide

/-- C4 amended: the raw captured output is carried in the error payload by
uploadAndAddRootHandler (upload and add-roots failures), by the typed
upload handlers via the wrapped helper messages, and by the ping,
create-proof-set and status handlers; but the three failure branches of
orchestrateHandler and the uploadFileHandler and addRootsHandler legacy
endpoints return fixed strings independent of the captured output. -/
theorem claim_C4_amended :
    (∀ (o : String) (s : List ToolResult) (u a : ToolResult),
      orchestrateM (.err o) s u a = (.httpErr "create-proof-set failed", 0)) ∧
    (∀ (o : String) (a : ToolResult),
      orchestrateM (.ok "Location: /pdp/proof-sets/created/0xabc")
        [.ok "ProofSet Created: true\nProofSet Id: 7"] (.err o) a
        = (.httpErr "upload-file failed", 1)) ∧
    (∀ o : String,
      orchestrateM (.ok "Location: /pdp/proof-sets/created/0xabc")
        [.ok "ProofSet Created: true\nProofSet Id: 7"] (.ok "cid") (.err o)
        = (.httpErr "add-roots failed", 1)) ∧
    (∀ (name o : String) (arRs : List ToolResult) (db : DbResult),
      uploadAndAddRootHandlerM "7" name .ok (.err o) arRs db
        = some ⟨.err 500 o, 0, 0, []⟩) ∧
    (∀ (o1 o2 o3 : String) (rs : List ToolResult) (name : String) (db : DbResult),
      goContains o1 notFoundMsg = true → goContains o2 notFoundMsg = true →
      goContains o3 notFoundMsg = true →
      uploadAndAddRootHandlerM "7" name .ok (.ok "cid")
        (.err o1 :: .err o2 :: .err o3 :: rs) db
        = some ⟨.err 500 o3, if isEncryptedName name then 3 else 0, 3, [2, 4]⟩) ∧
    (∀ o : String, goContains ("upload-file failed: " ++ o) o = true ∧
      goContains ("add-roots failed: " ++ o) o = true) ∧
    (∀ o : String, pingHandlerM (.err o) = .err 500 o ∧
      createProofSetHandlerM (.err o) = .err 500 o ∧
      getProofSetStatusHandlerM (.err o) = .err 500 o) ∧
    (∀ o : String, uploadFileHandlerM (.err o) = .err 500 "upload-file failed" ∧
      addRootsHandlerM (.err o) = .err 500 "add-roots failed") := by
  refine ⟨?_, ?_, ?_, ?_, ?_, ?_, ?_, ?_⟩
  · intro o s u a
    rfl
  · intro o a
    rfl
  · intro o
    rfl
  · intro name o arRs db
    rfl
  · intro o1 o2 o3 rs name db h1 h2 h3
    have hps : ("7" == "") = false := by decide
    simp only [uploadAndAddRootHandlerM, hps, Bool.false_eq_true, if_false,
      inlineExhaust rs h1 h2 h3]
  · intro o
    exact ⟨goContains_append_self "upload-file failed: " o,
      goContains_append_self "add-roots failed: " o⟩
  · intro o
    exact ⟨rfl, rfl, rfl⟩
  · intro o
    exact ⟨rfl, rfl⟩

/-- Witness for C4 amended: three concrete transient failures exhaust the
inline bind loop and the payload is the third raw output. -/
theorem claim_C4_amended_witness :
    uploadAndAddRootHandlerM "7" "f.bin" .ok (.ok "cid")
      [.err notFoundMsg, .err notFoundMsg, .err notFoundMsg] .ok
      = some ⟨.err 500 notFoundMsg, 0, 3, [2, 4]⟩ :=
  claim_C4_amended.2.2.2.2.1 notFoundMsg notFoundMsg notFoundMsg [] "f.bin" .ok
    (by decide) (by decide) (by decide)
